import Mathlib

/-!
# aws-vpn-controller: the EC2 helpers of `pkg/aws/ec2helper.go`

A shallow embedding of `GetVpcIDs`, `GetRouteTableIDs` and
`GetCustomerGatewayConfig`, followed by the properties proved about them.

Modelling conventions.

* A Go `*string` field is an `Option String`; `*p` on `none` is a nil-pointer
  panic, `aws.StringValue` maps `none` to `""`.
* The elements of SDK lists (`[]*ec2.Reservation`, `[]*ec2.Tag`, ...) and the
  output object of a call that returned a nil error are allocated by the SDK;
  they are values here, and so is the `*cloudformation.Stack` argument.
* Go strings are `String`s; `strings.HasPrefix` and `strings.Contains` are the
  prefix and the contiguous-substring test on their characters.
* The `ec2iface.EC2API` client is an arbitrary state machine: each call takes
  the client state and gives back a response (output or error) and the next
  state.
* A Go function ends by returning its results or by panicking.
* A `map[string]struct{}` is its key set; `for k := range m` visits the keys
  in an order chosen by the runtime, here by an arbitrary `order : Nat → Nat`.
-/

namespace AwsVpnController

/-! ## Go runtime -/

/-- A Go `error` value, identified by its message. -/
structure GoError where
  message : String
deriving DecidableEq

/-- The error made by `fmt.Errorf` from a format string without verbs. -/
def Errorf (format : String) : GoError := ⟨format⟩

/-- The run-time panics the helpers can raise. -/
inductive Panic where
  | nilDereference
  | indexOutOfRange
deriving DecidableEq

/-- How a call of a Go function `func(...) (α, error)` ends. -/
inductive Outcome (α : Type) where
  | ret (val : α) (err : Option GoError)
  | panic (cause : Panic)
deriving DecidableEq

/-- The function `aws.StringValue`: the pointed-to string, or `""` for a nil pointer. -/
def StringValue (p : Option String) : String :=
  match p with
  | some v => v
  | none => ""

/-- The test `strings.HasPrefix(s, pre)`. -/
def HasPrefix (s pre : String) : Bool := pre.data.isPrefixOf s.data

/-- Substring test on character lists: `sub` starts at some position of `s`. -/
def containsChars : List Char → List Char → Bool
  | [], sub => sub.isPrefixOf []
  | c :: s, sub => sub.isPrefixOf (c :: s) || containsChars s sub

/-- The test `strings.Contains(s, substr)`. -/
def Contains (s substr : String) : Bool := containsChars s.data substr.data

/-- The assignment `m[k] = struct{}{}` on the key set of a `map[string]struct{}`. -/
def mapInsert (m : List String) (k : String) : List String :=
  if k ∈ m then m else m ++ [k]

/-- The loop `for k := range m { ret = append(ret, k) }`: the keys of `m`, each once, in
the order the runtime picks. With `n` keys still to visit, the runtime visits
the one at position `order n` (modulo the number left). -/
def mapRange (order : Nat → Nat) : Nat → List String → List String
  | 0, _ => []
  | n + 1, m =>
    match m[order n % m.length]? with
    | none => []
    | some k => k :: mapRange order n (m.eraseIdx (order n % m.length))

/-! ## SDK data model -/

/-- The part of `ec2.Instance` the helpers read. -/
structure Instance where
  VpcId : Option String
deriving DecidableEq

/-- The part of `ec2.Reservation` the helpers read. -/
structure Reservation where
  Instances : List Instance
deriving DecidableEq

/-- Request of `DescribeInstances`. -/
structure DescribeInstancesInput where
  InstanceIds : List (Option String)
deriving DecidableEq

/-- Response of `DescribeInstances`. -/
structure DescribeInstancesOutput where
  Reservations : List Reservation
deriving DecidableEq

/-- An `ec2.Filter` built with `aws.String`. -/
structure Filter where
  Name : String
  Values : List String
deriving DecidableEq

/-- An `ec2.Tag`. -/
structure Tag where
  Key : Option String
  Value : Option String
deriving DecidableEq

/-- The part of `ec2.RouteTable` the helpers read. -/
structure RouteTable where
  RouteTableId : Option String
  Tags : List Tag
deriving DecidableEq

/-- Request of `DescribeRouteTables`. -/
structure DescribeRouteTablesInput where
  Filters : List Filter
deriving DecidableEq

/-- Response of `DescribeRouteTables`. -/
structure DescribeRouteTablesOutput where
  RouteTables : List RouteTable
deriving DecidableEq

/-- The part of `ec2.VpnConnection` the helpers read. -/
structure VpnConnection where
  CustomerGatewayConfiguration : Option String
deriving DecidableEq

/-- Request of `DescribeVpnConnections`. -/
structure DescribeVpnConnectionsInput where
  Filters : List Filter
deriving DecidableEq

/-- Response of `DescribeVpnConnections`. -/
structure DescribeVpnConnectionsOutput where
  VpnConnections : List VpnConnection
deriving DecidableEq

/-- A `cloudformation.Output`. -/
structure Output where
  OutputKey : Option String
  OutputValue : Option String
deriving DecidableEq

/-- The part of `cloudformation.Stack` the helpers read. -/
structure Stack where
  Outputs : List Output
deriving DecidableEq

/-- The three calls of `ec2iface.EC2API` the helpers issue, for a client whose
state has type `σ`. -/
structure EC2API (σ : Type) where
  DescribeInstances : DescribeInstancesInput → σ → Except GoError DescribeInstancesOutput × σ
  DescribeRouteTables : DescribeRouteTablesInput → σ → Except GoError DescribeRouteTablesOutput × σ
  DescribeVpnConnections :
    DescribeVpnConnectionsInput → σ → Except GoError DescribeVpnConnectionsOutput × σ

/-- RouteTableIDs contains IDs for the public and private route tables for a VPC. -/
structure RouteTableIDs where
  Public : String
  Private : String
deriving DecidableEq

/-! ## `GetVpcIDs` -/

/-- The inner loop of `GetVpcIDs`: `ids[*instance.VpcId] = struct{}{}` for each
instance of one reservation; `none` when a `VpcId` is nil. -/
def insertInstances : List Instance → List String → Option (List String)
  | [], ids => some ids
  | inst :: rest, ids =>
    match inst.VpcId with
    | none => none
    | some vpc => insertInstances rest (mapInsert ids vpc)

/-- The outer loop of `GetVpcIDs` over `resp.Reservations`. -/
def insertReservations : List Reservation → List String → Option (List String)
  | [], ids => some ids
  | reservation :: rest, ids =>
    match insertInstances reservation.Instances ids with
    | none => none
    | some ids1 => insertReservations rest ids1

/-- GetVpcIDs retrieves a list of unique vpcIDs from the provided nodes. The
returned slice is `none` for Go's nil slice. -/
def GetVpcIDs {σ : Type} (ec2Svc : EC2API σ) (order : Nat → Nat)
    (nodes : List (Option String)) (s : σ) : Outcome (Option (List String)) × σ :=
  match ec2Svc.DescribeInstances ⟨nodes⟩ s with
  | (.error err, s1) => (.ret none (some err), s1)
  | (.ok resp, s1) =>
    match insertReservations resp.Reservations [] with
    | none => (.panic .nilDereference, s1)
    | some ids => (.ret (some (mapRange order ids.length ids)) none, s1)

/-! ## `GetRouteTableIDs` -/

/-- The inner loop of `GetRouteTableIDs` over the tags of route table `r`. -/
def scanTags (r : RouteTable) : List Tag → RouteTableIDs → RouteTableIDs
  | [], ids => ids
  | v :: rest, ids =>
    let ids1 : RouteTableIDs :=
      if StringValue v.Value = "PublicRouteTable" then
        { ids with Public := StringValue r.RouteTableId }
      else ids
    let ids2 : RouteTableIDs :=
      if StringValue v.Value = "PrivateRouteTable" then
        { ids1 with Private := StringValue r.RouteTableId }
      else ids1
    scanTags r rest ids2

/-- The outer loop of `GetRouteTableIDs` over `routeTables.RouteTables`. -/
def scanRouteTables : List RouteTable → RouteTableIDs → RouteTableIDs
  | [], ids => ids
  | r :: rest, ids => scanRouteTables rest (scanTags r r.Tags ids)

/-- GetRouteTableIDs takes a vpn instance and returns its public and private
routetable ids. -/
def GetRouteTableIDs {σ : Type} (ec2Svc : EC2API σ) (VpcID : String) (s : σ) :
    (RouteTableIDs × Option GoError) × σ :=
  let filter : List Filter := [⟨"vpc-id", [VpcID]⟩]
  match ec2Svc.DescribeRouteTables ⟨filter⟩ s with
  | (.error err, s1) => ((⟨"", ""⟩, some err), s1)
  | (.ok routeTables, s1) =>
    let ids := scanRouteTables routeTables.RouteTables ⟨"", ""⟩
    if ids.Private ≠ "" ∧ ids.Public ≠ "" then
      ((ids, none), s1)
    else
      ((⟨"", ""⟩, some (Errorf "route table ids not found")), s1)

/-! ## `GetCustomerGatewayConfig` -/

/-- The loop of `GetCustomerGatewayConfig` over `stack.Outputs`, with the final
`return` reached when the loop runs to its end. -/
def scanOutputs {σ : Type} (ec2Svc : EC2API σ) (customerGatewayIP : String) :
    List Output → σ → Outcome String × σ
  | [], s =>
    (.ret "" (some (Errorf "unable to get CustomerGatewayID from cloudformation stack")), s)
  | output :: rest, s =>
    match output.OutputKey with
    | none => (.panic .nilDereference, s)
    | some key =>
      if HasPrefix key "CustomerGateway" then
        match output.OutputValue with
        | none => (.panic .nilDereference, s)
        | some customerGatewayID =>
          let vpnFilter : List Filter := [⟨"customer-gateway-id", [customerGatewayID]⟩]
          match ec2Svc.DescribeVpnConnections ⟨vpnFilter⟩ s with
          | (.error err, s1) => (.ret "" (some err), s1)
          | (.ok vpnConnection, s1) =>
            match vpnConnection.VpnConnections with
            | [] => (.panic .indexOutOfRange, s1)
            | first :: _ =>
              match first.CustomerGatewayConfiguration with
              | none => (.panic .nilDereference, s1)
              | some config =>
                if Contains config customerGatewayIP then (.ret config none, s1)
                else scanOutputs ec2Svc customerGatewayIP rest s1
      else scanOutputs ec2Svc customerGatewayIP rest s

/-- GetCustomerGatewayConfig takes a customer gateway IP address and a CFN VPN
stack and returns the VPN config for that customer gateway. -/
def GetCustomerGatewayConfig {σ : Type} (ec2Svc : EC2API σ) (customerGatewayIP : String)
    (stack : Stack) (s : σ) : Outcome String × σ :=
  scanOutputs ec2Svc customerGatewayIP stack.Outputs s

/-! ## Vocabulary of the statements -/

/-- The VPC identifiers of the instances of a response, in response order. -/
def vpcIdValues (resp : DescribeInstancesOutput) : List String :=
  (resp.Reservations.map (fun r => r.Instances.filterMap (fun i => i.VpcId))).flatten


/-- Route table `r` carries a tag whose value is exactly `role`. -/
def tagged (role : String) (r : RouteTable) : Prop := ∃ v ∈ r.Tags, v.Value = some role

instance (role : String) (r : RouteTable) : Decidable (tagged role r) := by
  unfold tagged; infer_instance

/-- The request `GetCustomerGatewayConfig` issues for a customer gateway identifier. -/
def vpnQuery (customerGatewayID : String) : DescribeVpnConnectionsInput :=
  ⟨[⟨"customer-gateway-id", [customerGatewayID]⟩]⟩

/-- The scan of `GetCustomerGatewayConfig` passes over every output of `outs`,
starting with the client in state `s`; the value is the client state the scan is
left in. An output is passed over when its key does not start with
`"CustomerGateway"` (no call is issued), or when its key does, and the call for
its value succeeds with a first connection whose configuration does not contain
the IP. The value is `none` when the scan stops at one of `outs`. -/
def passOver {σ : Type} (ec2Svc : EC2API σ) (customerGatewayIP : String) :
    List Output → σ → Option σ
  | [], s => some s
  | output :: rest, s =>
    match output.OutputKey with
    | none => none
    | some key =>
      if HasPrefix key "CustomerGateway" then
        match output.OutputValue with
        | none => none
        | some customerGatewayID =>
          match ec2Svc.DescribeVpnConnections (vpnQuery customerGatewayID) s with
          | (.ok ⟨first :: _⟩, s1) =>
            match first.CustomerGatewayConfiguration with
            | some config =>
              if Contains config customerGatewayIP then none
              else passOver ec2Svc customerGatewayIP rest s1
            | none => none
          | _ => none
      else passOver ec2Svc customerGatewayIP rest s

/-! ## Example clients -/

/-- A client that counts the calls it has served and answers them from fixed
data: every `DescribeInstances` with `instances`, every `DescribeRouteTables`
with `routes`, and a `DescribeVpnConnections` according to the customer gateway
identifier of its first filter (`""` when there is none). -/
def fixedClient (instances : Except GoError DescribeInstancesOutput)
    (routes : Except GoError DescribeRouteTablesOutput)
    (vpn : String → Except GoError DescribeVpnConnectionsOutput) : EC2API Nat where
  DescribeInstances := fun _ n => (instances, n + 1)
  DescribeRouteTables := fun _ n => (routes, n + 1)
  DescribeVpnConnections := fun input n =>
    match input.Filters with
    | ⟨_, id :: _⟩ :: _ => (vpn id, n + 1)
    | _ => (vpn "", n + 1)

/-- Two VPN configuration documents for the gateway address `203.0.113.10`, and
one for another address. -/
def configA : String := "<vpn_connection id=\"vpn-a\"><ip_address>203.0.113.10</ip_address></vpn_connection>"

def configB : String := "<vpn_connection id=\"vpn-b\"><ip_address>203.0.113.10</ip_address></vpn_connection>"

def configC : String := "<vpn_connection id=\"vpn-c\"><ip_address>198.51.100.7</ip_address></vpn_connection>"

/-- The VPN connections of a small account: gateways `cgw-a`, `cgw-b` and
`cgw-c` have one connection each, `cgw-new` has none yet, and a query for any
other gateway is rejected. -/
def demoVpn (customerGatewayID : String) : Except GoError DescribeVpnConnectionsOutput :=
  if customerGatewayID = "cgw-a" then .ok ⟨[⟨some configA⟩]⟩
  else if customerGatewayID = "cgw-b" then .ok ⟨[⟨some configB⟩]⟩
  else if customerGatewayID = "cgw-c" then .ok ⟨[⟨some configC⟩]⟩
  else if customerGatewayID = "cgw-new" then .ok ⟨[]⟩
  else .error ⟨"InvalidCustomerGatewayID.NotFound"⟩

/-- A tag `Name = value`. -/
def nameTag (value : String) : Tag := ⟨some "Name", some value⟩

/-- Route tables of the small account: two public ones and a private one. -/
def demoRoutes : List RouteTable :=
  [⟨some "rtb-1", [nameTag "PublicRouteTable"]⟩,
   ⟨some "rtb-2", [nameTag "PrivateRouteTable"]⟩,
   ⟨some "rtb-3", [⟨some "team", some "net"⟩, nameTag "PublicRouteTable"]⟩]

/-- Instances of the small account, spread over two VPCs. -/
def demoInstances : DescribeInstancesOutput :=
  ⟨[⟨[⟨some "vpc-a"⟩, ⟨some "vpc-b"⟩]⟩, ⟨[⟨some "vpc-a"⟩]⟩]⟩

/-- The small account. -/
def demoClient : EC2API Nat :=
  fixedClient (.ok demoInstances) (.ok ⟨demoRoutes⟩) demoVpn

/-- The same account after one instance has left its VPC: the second instance
of the response has no `VpcId`. -/
def noVpcClient : EC2API Nat :=
  fixedClient (.ok ⟨[⟨[⟨some "vpc-a"⟩, ⟨none⟩]⟩]⟩) (.ok ⟨[]⟩) demoVpn

/-- Route tables tagged for both roles, the public one without an identifier. -/
def noIdRoutes : List RouteTable :=
  [⟨none, [nameTag "PublicRouteTable"]⟩, ⟨some "rtb-2", [nameTag "PrivateRouteTable"]⟩]

/-- An account whose public route table comes back without an identifier. -/
def noIdClient : EC2API Nat :=
  fixedClient (.ok ⟨[]⟩) (.ok ⟨noIdRoutes⟩) demoVpn

/-- An account with no route tables in the VPC. -/
def emptyClient : EC2API Nat :=
  fixedClient (.ok ⟨[]⟩) (.ok ⟨[]⟩) demoVpn

/-- A stack with a VPC output and three customer gateways. -/
def demoStack : Stack :=
  ⟨[⟨some "VpcId", some "vpc-a"⟩, ⟨some "CustomerGatewayC", some "cgw-c"⟩,
    ⟨some "CustomerGatewayB", some "cgw-b"⟩, ⟨some "CustomerGatewayA", some "cgw-a"⟩]⟩

/-- A client every call of which fails with `e`. -/
def failingClient (e : GoError) : EC2API Nat :=
  fixedClient (.error e) (.error e) (fun _ => .error e)

/-! ## Strings and map iteration -/

/-- The model of `strings.HasPrefix` is the list prefix relation on characters. -/
theorem HasPrefix_iff (s pre : String) : HasPrefix s pre = true ↔ pre.data <+: s.data := by
  simp [HasPrefix, List.isPrefixOf_iff_prefix]

theorem containsChars_iff (s sub : List Char) : containsChars s sub = true ↔ sub <:+: s := by
  induction s with
  | nil => simp [containsChars, List.isPrefixOf_iff_prefix]
  | cons c s ih =>
    simp [containsChars, List.isPrefixOf_iff_prefix, ih, List.infix_cons_iff]

/-- The model of `strings.Contains` is the contiguous-sublist relation on
characters. -/
theorem Contains_iff (s sub : String) : Contains s sub = true ↔ sub.data <:+: s.data := by
  simp [Contains, containsChars_iff]

theorem perm_getElem_cons_eraseIdx (l : List String) (i : Nat) (h : i < l.length) :
    (l[i] :: l.eraseIdx i).Perm l := by
  induction l generalizing i with
  | nil => simp at h
  | cons a l ih =>
    cases i with
    | zero => simp
    | succ i =>
      simp only [List.length_cons, Nat.add_lt_add_iff_right] at h
      simp only [List.getElem_cons_succ, List.eraseIdx_cons_succ]
      exact (List.Perm.swap a l[i] _).trans ((ih i h).cons a)

/-- Ranging over a map visits every key exactly once. -/
theorem mapRange_perm (order : Nat → Nat) (n : Nat) (m : List String) (h : m.length = n) :
    (mapRange order n m).Perm m := by
  induction n generalizing m with
  | zero =>
    have : m = [] := List.length_eq_zero.mp h
    subst this; simp [mapRange]
  | succ n ih =>
    have hpos : 0 < m.length := by omega
    have hi : order n % m.length < m.length := Nat.mod_lt _ hpos
    simp only [mapRange, List.getElem?_eq_getElem hi]
    have hlen : (m.eraseIdx (order n % m.length)).length = n := by
      rw [List.length_eraseIdx]; simp [hi]; omega
    exact ((ih _ hlen).cons _).trans (perm_getElem_cons_eraseIdx m _ hi)

theorem mapRange_congr (order order1 : Nat → Nat) (n : Nat) (m : List String)
    (h : ∀ k, k < n → order k = order1 k) : mapRange order n m = mapRange order1 n m := by
  induction n generalizing m with
  | zero => rfl
  | succ n ih =>
    have hn : order n = order1 n := h n (Nat.lt_succ_self n)
    have hrec : ∀ m1, mapRange order n m1 = mapRange order1 n m1 :=
      fun m1 => ih m1 (fun k hk => h k (Nat.lt_succ_of_lt hk))
    simp only [mapRange, hn, hrec]

/-- Every ordering of the keys is the result of ranging over the map in some
order: `mapRange` leaves the iteration order open. -/
theorem mapRange_any_order (l m : List String) (hperm : l.Perm m) :
    ∃ order : Nat → Nat, mapRange order m.length m = l := by
  induction l generalizing m with
  | nil =>
    have : m = [] := List.Perm.nil_eq hperm |>.symm
    subst this
    exact ⟨fun _ => 0, rfl⟩
  | cons a l ih =>
    have ha : a ∈ m := hperm.subset (List.mem_cons_self a l)
    obtain ⟨i, hi, hget⟩ := List.getElem_of_mem ha
    have hp : l.Perm (m.eraseIdx i) := by
      have h1 : (a :: l).Perm (a :: m.eraseIdx i) := by
        have h2 := hperm.trans (perm_getElem_cons_eraseIdx m i hi).symm
        rw [hget] at h2
        exact h2
      exact List.Perm.cons_inv h1
    obtain ⟨order1, h1⟩ := ih (m.eraseIdx i) hp
    have hlen : (m.eraseIdx i).length = m.length - 1 := by
      rw [List.length_eraseIdx]; simp [hi]
    obtain ⟨n, hn⟩ : ∃ n, m.length = n + 1 := ⟨m.length - 1, by omega⟩
    refine ⟨fun k => if k = n then i else order1 k, ?_⟩
    have hmod : i % m.length = i := Nat.mod_eq_of_lt hi
    have hlen1 : (m.eraseIdx i).length = n := by omega
    rw [hn, mapRange]
    simp only [if_true]
    rw [hmod, List.getElem?_eq_getElem hi, hget]
    simp only
    congr 1
    rw [← h1, hlen1]
    apply mapRange_congr
    intro k hk
    simp [Nat.ne_of_lt hk]

/-! ## `GetVpcIDs`: the loops -/

theorem mem_vpcIdValues (resp : DescribeInstancesOutput) (v : String) :
    v ∈ vpcIdValues resp ↔ ∃ r ∈ resp.Reservations, ∃ i ∈ r.Instances, i.VpcId = some v := by
  simp [vpcIdValues]

theorem mapInsert_nodup (m : List String) (k : String) (h : m.Nodup) : (mapInsert m k).Nodup := by
  unfold mapInsert
  split
  · exact h
  · rename_i hk
    exact List.nodup_append.mpr ⟨h, List.nodup_singleton k, by
      intro a ha hb; simp at hb; subst hb; exact hk ha⟩

theorem mem_mapInsert (m : List String) (k v : String) : v ∈ mapInsert m k ↔ v ∈ m ∨ v = k := by
  unfold mapInsert
  split
  · rename_i hk
    constructor
    · exact Or.inl
    · rintro (h | h)
      · exact h
      · subst h; exact hk
  · simp

theorem insertInstances_some (l : List Instance) (ids : List String)
    (h : ∀ i ∈ l, i.VpcId ≠ none) :
    ∃ ids1, insertInstances l ids = some ids1 ∧ (ids.Nodup → ids1.Nodup) ∧
      ∀ v, v ∈ ids1 ↔ v ∈ ids ∨ ∃ i ∈ l, i.VpcId = some v := by
  induction l generalizing ids with
  | nil => exact ⟨ids, rfl, id, by simp⟩
  | cons inst rest ih =>
    cases hv : inst.VpcId with
    | none => exact absurd hv (h inst (List.mem_cons_self _ _))
    | some vpc =>
      obtain ⟨ids1, h1, h2, h3⟩ := ih (mapInsert ids vpc)
        (fun i hi => h i (List.mem_cons_of_mem _ hi))
      refine ⟨ids1, by simp [insertInstances, hv, h1], fun hn => h2 (mapInsert_nodup _ _ hn), ?_⟩
      intro v
      rw [h3, mem_mapInsert]
      constructor
      · rintro ((hm | rfl) | ⟨i, hi, hiv⟩)
        · exact Or.inl hm
        · exact Or.inr ⟨inst, List.mem_cons_self _ _, hv⟩
        · exact Or.inr ⟨i, List.mem_cons_of_mem _ hi, hiv⟩
      · rintro (hm | ⟨i, hi, hiv⟩)
        · exact Or.inl (Or.inl hm)
        · rcases List.mem_cons.mp hi with rfl | hi
          · rw [hv] at hiv; exact Or.inl (Or.inr (Option.some.inj hiv).symm)
          · exact Or.inr ⟨i, hi, hiv⟩

theorem insertReservations_some (rs : List Reservation) (ids : List String)
    (h : ∀ r ∈ rs, ∀ i ∈ r.Instances, i.VpcId ≠ none) :
    ∃ ids1, insertReservations rs ids = some ids1 ∧ (ids.Nodup → ids1.Nodup) ∧
      ∀ v, v ∈ ids1 ↔ v ∈ ids ∨ ∃ r ∈ rs, ∃ i ∈ r.Instances, i.VpcId = some v := by
  induction rs generalizing ids with
  | nil => exact ⟨ids, rfl, id, by simp⟩
  | cons r rest ih =>
    obtain ⟨ids1, h1, h2, h3⟩ := insertInstances_some r.Instances ids (h r (List.mem_cons_self _ _))
    obtain ⟨ids2, k1, k2, k3⟩ := ih ids1 (fun r' hr' => h r' (List.mem_cons_of_mem _ hr'))
    refine ⟨ids2, by simp [insertReservations, h1, k1], fun hn => k2 (h2 hn), ?_⟩
    intro v
    rw [k3, h3]
    constructor
    · rintro ((hm | ⟨i, hi, hiv⟩) | ⟨r', hr', hx⟩)
      · exact Or.inl hm
      · exact Or.inr ⟨r, List.mem_cons_self _ _, i, hi, hiv⟩
      · exact Or.inr ⟨r', List.mem_cons_of_mem _ hr', hx⟩
    · rintro (hm | ⟨r', hr', hx⟩)
      · exact Or.inl (Or.inl hm)
      · rcases List.mem_cons.mp hr' with rfl | hr'
        · exact Or.inl (Or.inr hx)
        · exact Or.inr ⟨r', hr', hx⟩

theorem insertInstances_none (l : List Instance) (ids : List String)
    (h : ∃ i ∈ l, i.VpcId = none) : insertInstances l ids = none := by
  induction l generalizing ids with
  | nil => simp at h
  | cons inst rest ih =>
    cases hv : inst.VpcId with
    | none => simp [insertInstances, hv]
    | some vpc =>
      simp only [insertInstances, hv]
      apply ih
      obtain ⟨i, hi, hin⟩ := h
      rcases List.mem_cons.mp hi with rfl | hi
      · rw [hv] at hin; cases hin
      · exact ⟨i, hi, hin⟩

theorem insertReservations_none (rs : List Reservation) (ids : List String)
    (h : ∃ r ∈ rs, ∃ i ∈ r.Instances, i.VpcId = none) : insertReservations rs ids = none := by
  induction rs generalizing ids with
  | nil => simp at h
  | cons r rest ih =>
    cases hr : insertInstances r.Instances ids with
    | none => simp [insertReservations, hr]
    | some ids1 =>
      simp only [insertReservations, hr]
      apply ih
      obtain ⟨r', hr', hi⟩ := h
      rcases List.mem_cons.mp hr' with rfl | hr'
      · rw [insertInstances_none _ _ hi] at hr; cases hr
      · exact ⟨r', hr', hi⟩

/-! ## `GetRouteTableIDs`: the loops -/

theorem StringValue_eq_public (p : Option String) :
    StringValue p = "PublicRouteTable" ↔ p = some "PublicRouteTable" := by
  cases p with
  | none => simp [StringValue]
  | some v => simp [StringValue]

theorem StringValue_eq_private (p : Option String) :
    StringValue p = "PrivateRouteTable" ↔ p = some "PrivateRouteTable" := by
  cases p with
  | none => simp [StringValue]
  | some v => simp [StringValue]

theorem scanTags_Public (r : RouteTable) (tags : List Tag) (ids : RouteTableIDs) :
    (scanTags r tags ids).Public =
      if ∃ v ∈ tags, v.Value = some "PublicRouteTable" then StringValue r.RouteTableId
      else ids.Public := by
  induction tags generalizing ids with
  | nil => simp [scanTags]
  | cons v rest ih =>
    simp only [scanTags, ih, StringValue_eq_public, StringValue_eq_private, List.mem_cons,
      exists_eq_or_imp]
    by_cases h1 : v.Value = some "PublicRouteTable" <;>
    by_cases h2 : v.Value = some "PrivateRouteTable" <;>
    by_cases h3 : ∃ a ∈ rest, a.Value = some "PublicRouteTable" <;> simp [h1, h2, h3]

theorem scanTags_Private (r : RouteTable) (tags : List Tag) (ids : RouteTableIDs) :
    (scanTags r tags ids).Private =
      if ∃ v ∈ tags, v.Value = some "PrivateRouteTable" then StringValue r.RouteTableId
      else ids.Private := by
  induction tags generalizing ids with
  | nil => simp [scanTags]
  | cons v rest ih =>
    simp only [scanTags, ih, StringValue_eq_public, StringValue_eq_private, List.mem_cons,
      exists_eq_or_imp]
    by_cases h1 : v.Value = some "PublicRouteTable" <;>
    by_cases h2 : v.Value = some "PrivateRouteTable" <;>
    by_cases h3 : ∃ a ∈ rest, a.Value = some "PrivateRouteTable" <;> simp [h1, h2, h3]

theorem scanRouteTables_append (a b : List RouteTable) (ids : RouteTableIDs) :
    scanRouteTables (a ++ b) ids = scanRouteTables b (scanRouteTables a ids) := by
  induction a generalizing ids with
  | nil => rfl
  | cons r rest ih => simp [scanRouteTables, ih]

theorem scanRouteTables_Public_of_untagged (ts : List RouteTable) (ids : RouteTableIDs)
    (h : ∀ t ∈ ts, ¬ tagged "PublicRouteTable" t) :
    (scanRouteTables ts ids).Public = ids.Public := by
  induction ts generalizing ids with
  | nil => rfl
  | cons r rest ih =>
    have hr : ¬ ∃ v ∈ r.Tags, v.Value = some "PublicRouteTable" := h r (List.mem_cons_self _ _)
    rw [scanRouteTables, ih _ (fun t ht => h t (List.mem_cons_of_mem _ ht)), scanTags_Public,
      if_neg hr]

theorem scanRouteTables_Private_of_untagged (ts : List RouteTable) (ids : RouteTableIDs)
    (h : ∀ t ∈ ts, ¬ tagged "PrivateRouteTable" t) :
    (scanRouteTables ts ids).Private = ids.Private := by
  induction ts generalizing ids with
  | nil => rfl
  | cons r rest ih =>
    have hr : ¬ ∃ v ∈ r.Tags, v.Value = some "PrivateRouteTable" := h r (List.mem_cons_self _ _)
    rw [scanRouteTables, ih _ (fun t ht => h t (List.mem_cons_of_mem _ ht)), scanTags_Private,
      if_neg hr]

/-- The last route table tagged `"PublicRouteTable"` sets the `Public` field. -/
theorem scanRouteTables_Public_last (before after : List RouteTable) (p : RouteTable)
    (ids : RouteTableIDs) (hp : tagged "PublicRouteTable" p)
    (hafter : ∀ t ∈ after, ¬ tagged "PublicRouteTable" t) :
    (scanRouteTables (before ++ p :: after) ids).Public = StringValue p.RouteTableId := by
  have hp1 : ∃ v ∈ p.Tags, v.Value = some "PublicRouteTable" := hp
  rw [scanRouteTables_append, scanRouteTables, scanRouteTables_Public_of_untagged _ _ hafter,
    scanTags_Public, if_pos hp1]

/-- The last route table tagged `"PrivateRouteTable"` sets the `Private` field. -/
theorem scanRouteTables_Private_last (before after : List RouteTable) (p : RouteTable)
    (ids : RouteTableIDs) (hp : tagged "PrivateRouteTable" p)
    (hafter : ∀ t ∈ after, ¬ tagged "PrivateRouteTable" t) :
    (scanRouteTables (before ++ p :: after) ids).Private = StringValue p.RouteTableId := by
  have hp1 : ∃ v ∈ p.Tags, v.Value = some "PrivateRouteTable" := hp
  rw [scanRouteTables_append, scanRouteTables, scanRouteTables_Private_of_untagged _ _ hafter,
    scanTags_Private, if_pos hp1]

/-- A field that ends non-empty was set by a tagged route table. -/
theorem exists_tagged_of_Public_ne (ts : List RouteTable)
    (h : (scanRouteTables ts ⟨"", ""⟩).Public ≠ "") : ∃ t ∈ ts, tagged "PublicRouteTable" t := by
  by_contra hno
  exact h (scanRouteTables_Public_of_untagged ts _ (fun t ht htag => hno ⟨t, ht, htag⟩))

theorem exists_tagged_of_Private_ne (ts : List RouteTable)
    (h : (scanRouteTables ts ⟨"", ""⟩).Private ≠ "") : ∃ t ∈ ts, tagged "PrivateRouteTable" t := by
  by_contra hno
  exact h (scanRouteTables_Private_of_untagged ts _ (fun t ht htag => hno ⟨t, ht, htag⟩))

/-! ## `GetCustomerGatewayConfig`: the loop -/

theorem scanOutputs_cons_skip_key {σ : Type} (ec2Svc : EC2API σ) (ip : String) (o : Output)
    (rest : List Output) (s : σ) (key : String) (hkey : o.OutputKey = some key)
    (hpre : HasPrefix key "CustomerGateway" = false) :
    scanOutputs ec2Svc ip (o :: rest) s = scanOutputs ec2Svc ip rest s := by
  simp [scanOutputs, hkey, hpre]

theorem scanOutputs_cons_skip_config {σ : Type} (ec2Svc : EC2API σ) (ip : String) (o : Output)
    (rest : List Output) (s s1 : σ) (key value config : String) (first : VpnConnection)
    (others : List VpnConnection) (hkey : o.OutputKey = some key)
    (hpre : HasPrefix key "CustomerGateway" = true) (hval : o.OutputValue = some value)
    (hcall : ec2Svc.DescribeVpnConnections (vpnQuery value) s = (.ok ⟨first :: others⟩, s1))
    (hcfg : first.CustomerGatewayConfiguration = some config)
    (hip : Contains config ip = false) :
    scanOutputs ec2Svc ip (o :: rest) s = scanOutputs ec2Svc ip rest s1 := by
  unfold vpnQuery at hcall
  simp [scanOutputs, hkey, hpre, hval, hcall, hcfg, hip]

theorem scanOutputs_cons_match {σ : Type} (ec2Svc : EC2API σ) (ip : String) (o : Output)
    (rest : List Output) (s s1 : σ) (key value config : String) (first : VpnConnection)
    (others : List VpnConnection) (hkey : o.OutputKey = some key)
    (hpre : HasPrefix key "CustomerGateway" = true) (hval : o.OutputValue = some value)
    (hcall : ec2Svc.DescribeVpnConnections (vpnQuery value) s = (.ok ⟨first :: others⟩, s1))
    (hcfg : first.CustomerGatewayConfiguration = some config)
    (hip : Contains config ip = true) :
    scanOutputs ec2Svc ip (o :: rest) s = (.ret config none, s1) := by
  unfold vpnQuery at hcall
  simp [scanOutputs, hkey, hpre, hval, hcall, hcfg, hip]

theorem scanOutputs_cons_error {σ : Type} (ec2Svc : EC2API σ) (ip : String) (o : Output)
    (rest : List Output) (s s1 : σ) (key value : String) (e : GoError)
    (hkey : o.OutputKey = some key)
    (hpre : HasPrefix key "CustomerGateway" = true) (hval : o.OutputValue = some value)
    (hcall : ec2Svc.DescribeVpnConnections (vpnQuery value) s = (.error e, s1)) :
    scanOutputs ec2Svc ip (o :: rest) s = (.ret "" (some e), s1) := by
  unfold vpnQuery at hcall
  simp [scanOutputs, hkey, hpre, hval, hcall]

theorem scanOutputs_cons_empty {σ : Type} (ec2Svc : EC2API σ) (ip : String) (o : Output)
    (rest : List Output) (s s1 : σ) (key value : String)
    (hkey : o.OutputKey = some key)
    (hpre : HasPrefix key "CustomerGateway" = true) (hval : o.OutputValue = some value)
    (hcall : ec2Svc.DescribeVpnConnections (vpnQuery value) s = (.ok ⟨[]⟩, s1)) :
    scanOutputs ec2Svc ip (o :: rest) s = (.panic .indexOutOfRange, s1) := by
  unfold vpnQuery at hcall
  simp [scanOutputs, hkey, hpre, hval, hcall]

/-- Outputs the scan passes over do not change its result. -/
theorem scanOutputs_append_of_passOver {σ : Type} (ec2Svc : EC2API σ) (ip : String)
    (before rest : List Output) (s s0 : σ) (h : passOver ec2Svc ip before s = some s0) :
    scanOutputs ec2Svc ip (before ++ rest) s = scanOutputs ec2Svc ip rest s0 := by
  induction before generalizing s with
  | nil => simp [passOver] at h; subst h; rfl
  | cons o tl ih =>
    rw [passOver] at h
    cases hkey : o.OutputKey with
    | none => simp [hkey] at h
    | some key =>
      simp only [hkey] at h
      cases hpre : HasPrefix key "CustomerGateway" with
      | false =>
        simp only [hpre, Bool.false_eq_true, if_false] at h
        rw [List.cons_append, scanOutputs_cons_skip_key ec2Svc ip o _ s key hkey hpre]
        exact ih s h
      | true =>
        simp only [hpre, if_true] at h
        cases hval : o.OutputValue with
        | none => simp [hval] at h
        | some value =>
          simp only [hval] at h
          split at h
          · rename_i first others s1 hcall
            split at h
            · rename_i config hcfg
              cases hip : Contains config ip with
              | true => simp [hip] at h
              | false =>
                simp only [hip, Bool.false_eq_true, if_false] at h
                rw [List.cons_append, scanOutputs_cons_skip_config ec2Svc ip o _ s s1 key value
                  config first others hkey hpre hval hcall hcfg hip]
                exact ih s1 h
            · cases h
          · cases h

/-- A run that returns a nil error stopped at an output whose call produced the
returned configuration, after passing over every earlier output. -/
theorem scanOutputs_ret_nil_inv {σ : Type} (ec2Svc : EC2API σ) (ip : String)
    (outs : List Output) (s s1 : σ) (config : String)
    (h : scanOutputs ec2Svc ip outs s = (.ret config none, s1)) :
    ∃ (before after : List Output) (o : Output) (key value : String) (s0 : σ)
      (first : VpnConnection) (others : List VpnConnection),
      outs = before ++ o :: after ∧ passOver ec2Svc ip before s = some s0 ∧
      o.OutputKey = some key ∧ HasPrefix key "CustomerGateway" = true ∧
      o.OutputValue = some value ∧
      ec2Svc.DescribeVpnConnections (vpnQuery value) s0 = (.ok ⟨first :: others⟩, s1) ∧
      first.CustomerGatewayConfiguration = some config ∧ Contains config ip = true := by
  induction outs generalizing s with
  | nil => simp [scanOutputs] at h
  | cons o tl ih =>
    rw [scanOutputs] at h
    cases hkey : o.OutputKey with
    | none => simp [hkey] at h
    | some key =>
      simp only [hkey] at h
      cases hpre : HasPrefix key "CustomerGateway" with
      | false =>
        simp only [hpre, Bool.false_eq_true, if_false] at h
        obtain ⟨before, after, o1, k1, v1, s0, first, others, e1, e2, e3⟩ := ih s h
        refine ⟨o :: before, after, o1, k1, v1, s0, first, others, by simp [e1], ?_, e3⟩
        simp [passOver, hkey, hpre, e2]
      | true =>
        simp only [hpre, if_true] at h
        cases hval : o.OutputValue with
        | none => simp [hval] at h
        | some value =>
          simp only [hval] at h
          cases hcall : ec2Svc.DescribeVpnConnections (vpnQuery value) s with
          | mk resp s2 =>
            unfold vpnQuery at hcall
            simp only [hcall] at h
            cases resp with
            | error e => simp at h
            | ok out =>
              obtain ⟨conns⟩ := out
              cases conns with
              | nil => simp at h
              | cons first others =>
                simp only at h
                cases hcfg : first.CustomerGatewayConfiguration with
                | none => simp [hcfg] at h
                | some cfg =>
                  simp only [hcfg] at h
                  cases hip : Contains cfg ip with
                  | true =>
                    simp only [hip, if_true, Prod.mk.injEq, Outcome.ret.injEq, and_true] at h
                    obtain ⟨hc, hs⟩ := h
                    subst hc; subst hs
                    exact ⟨[], tl, o, key, value, s, first, others, rfl, rfl, hkey, hpre, hval,
                      hcall, hcfg, hip⟩
                  | false =>
                    simp only [hip, Bool.false_eq_true, if_false] at h
                    obtain ⟨before, after, o1, k1, v1, s0, f1, oth1, e1, e2, e3⟩ := ih s2 h
                    refine ⟨o :: before, after, o1, k1, v1, s0, f1, oth1, by simp [e1], ?_, e3⟩
                    simp [passOver, hkey, hpre, hval, vpnQuery, hcall, hcfg, hip, e2]

/-- Outputs the scan passes over carry a key, and the prefixed ones among them
answered with a configuration that lacks the IP. -/
theorem passOver_mem {σ : Type} (ec2Svc : EC2API σ) (ip : String) (before : List Output)
    (s s0 : σ) (h : passOver ec2Svc ip before s = some s0) :
    ∀ o ∈ before, ∃ key, o.OutputKey = some key ∧
      (HasPrefix key "CustomerGateway" = true →
        ∃ (value : String) (sa sb : σ) (first : VpnConnection) (others : List VpnConnection)
          (config : String), o.OutputValue = some value ∧
          ec2Svc.DescribeVpnConnections (vpnQuery value) sa = (.ok ⟨first :: others⟩, sb) ∧
          first.CustomerGatewayConfiguration = some config ∧ Contains config ip = false) := by
  induction before generalizing s with
  | nil => simp
  | cons o tl ih =>
    rw [passOver] at h
    cases hkey : o.OutputKey with
    | none => simp [hkey] at h
    | some key =>
      simp only [hkey] at h
      cases hpre : HasPrefix key "CustomerGateway" with
      | false =>
        simp only [hpre, Bool.false_eq_true, if_false] at h
        intro x hx
        rcases List.mem_cons.mp hx with rfl | hx
        · exact ⟨key, hkey, fun hp => by rw [hpre] at hp; cases hp⟩
        · exact ih s h x hx
      | true =>
        simp only [hpre, if_true] at h
        cases hval : o.OutputValue with
        | none => simp [hval] at h
        | some value =>
          simp only [hval] at h
          split at h
          · rename_i first others s1 hcall
            split at h
            · rename_i config hcfg
              cases hip : Contains config ip with
              | true => simp [hip] at h
              | false =>
                simp only [hip, Bool.false_eq_true, if_false] at h
                intro x hx
                rcases List.mem_cons.mp hx with rfl | hx
                · exact ⟨key, hkey, fun _ =>
                    ⟨value, s, s1, first, others, config, hval, hcall, hcfg, hip⟩⟩
                · exact ih s1 h x hx
            · cases h
          · cases h

/-! ## `GetVpcIDs`: results -/

/-- GetVpcIDs on a response in which every instance carries a `VpcId`: the call
returns a nil error and a duplicate-free list of exactly the VPC identifiers of
the response, whatever order the map is ranged in. -/
theorem GetVpcIDs_of_vpcIds_present {σ : Type} (ec2Svc : EC2API σ) (order : Nat → Nat)
    (nodes : List (Option String)) (s s1 : σ) (resp : DescribeInstancesOutput)
    (hcall : ec2Svc.DescribeInstances ⟨nodes⟩ s = (.ok resp, s1))
    (hvpc : ∀ r ∈ resp.Reservations, ∀ i ∈ r.Instances, i.VpcId ≠ none) :
    ∃ ret : List String,
      GetVpcIDs ec2Svc order nodes s = (.ret (some ret) none, s1) ∧
      ret.Nodup ∧
      (∀ v, v ∈ ret ↔ ∃ r ∈ resp.Reservations, ∃ i ∈ r.Instances, i.VpcId = some v) ∧
      ret.length = (vpcIdValues resp).toFinset.card ∧
      (∀ v, (∃ r ∈ resp.Reservations, ∃ i, i ∈ r.Instances) →
        (∀ r ∈ resp.Reservations, ∀ i ∈ r.Instances, i.VpcId = some v) → ret = [v]) := by
  obtain ⟨ids, h1, h2, h3⟩ := insertReservations_some resp.Reservations [] hvpc
  have hperm := mapRange_perm order ids.length ids rfl
  have hnd : (mapRange order ids.length ids).Nodup := hperm.nodup_iff.mpr (h2 List.nodup_nil)
  have hmem : ∀ v, v ∈ mapRange order ids.length ids ↔
      ∃ r ∈ resp.Reservations, ∃ i ∈ r.Instances, i.VpcId = some v := by
    intro v; rw [hperm.mem_iff, h3]; simp
  refine ⟨mapRange order ids.length ids, by simp [GetVpcIDs, hcall, h1], hnd, hmem, ?_, ?_⟩
  · rw [← List.toFinset_card_of_nodup hnd]
    congr 1
    ext v
    simp only [List.mem_toFinset, hmem, mem_vpcIdValues]
  · intro v ⟨r, hr, i, hi⟩ hall
    have hv : v ∈ mapRange order ids.length ids := (hmem v).mpr ⟨r, hr, i, hi, hall r hr i hi⟩
    have honly : ∀ w ∈ mapRange order ids.length ids, w = v := by
      intro w hw
      obtain ⟨r1, hr1, i1, hi1, hw1⟩ := (hmem w).mp hw
      rw [hall r1 hr1 i1 hi1] at hw1
      exact (Option.some.inj hw1).symm
    generalize mapRange order ids.length ids = l at hnd hv honly
    match l, hnd, hv, honly with
    | [a], _, hv, _ => simp at hv; simp [hv]
    | a :: b :: t, hnd, _, honly =>
      have ha := honly a (by simp)
      have hb := honly b (by simp)
      subst ha; subst hb
      simp at hnd
    | [], _, hv, _ => simp at hv

/-- GetVpcIDs on a successful response that holds an instance without a `VpcId`:
the dereference `*instance.VpcId` panics. -/
theorem GetVpcIDs_panics_of_missing_VpcId {σ : Type} (ec2Svc : EC2API σ) (order : Nat → Nat)
    (nodes : List (Option String)) (s s1 : σ) (resp : DescribeInstancesOutput)
    (hcall : ec2Svc.DescribeInstances ⟨nodes⟩ s = (.ok resp, s1))
    (hnil : ∃ r ∈ resp.Reservations, ∃ i ∈ r.Instances, i.VpcId = none) :
    GetVpcIDs ec2Svc order nodes s = (.panic .nilDereference, s1) := by
  simp [GetVpcIDs, hcall, insertReservations_none _ _ hnil]

/-- C1, at the failing input: `DescribeInstances` succeeds with one reservation
whose second instance has no `VpcId`; `GetVpcIDs` then ends in a nil-dereference
panic, for every iteration order of the map, instead of returning a nil error
and the list of VPC identifiers. -/
theorem GetVpcIDs_noVpc_panics (order : Nat → Nat) :
    GetVpcIDs noVpcClient order [some "i-0a", some "i-0b"] 0 = (.panic .nilDereference, 1) :=
  rfl

/-! ## `GetRouteTableIDs`: results -/

/-- GetRouteTableIDs after a successful `DescribeRouteTables`: the guard on the two
scanned fields decides between the pair and the "not found" error. -/
theorem GetRouteTableIDs_of_ok {σ : Type} (ec2Svc : EC2API σ) (VpcID : String) (s s1 : σ)
    (tables : List RouteTable)
    (hcall : ec2Svc.DescribeRouteTables ⟨[⟨"vpc-id", [VpcID]⟩]⟩ s = (.ok ⟨tables⟩, s1)) :
    GetRouteTableIDs ec2Svc VpcID s =
      if (scanRouteTables tables ⟨"", ""⟩).Private ≠ "" ∧
          (scanRouteTables tables ⟨"", ""⟩).Public ≠ "" then
        ((scanRouteTables tables ⟨"", ""⟩, none), s1)
      else ((⟨"", ""⟩, some (Errorf "route table ids not found")), s1) := by
  simp [GetRouteTableIDs, hcall]

/-- C2, the claim as stated fails: the response of `noIdClient` has a route
table tagged `"PublicRouteTable"` and one tagged `"PrivateRouteTable"`, and
`GetRouteTableIDs` returns the "not found" error, because the public one has no
identifier. -/
theorem GetRouteTableIDs_tagged_without_id :
    noIdClient.DescribeRouteTables ⟨[⟨"vpc-id", ["vpc-a"]⟩]⟩ 0 = (.ok ⟨noIdRoutes⟩, 1) ∧
    (∃ r ∈ noIdRoutes, tagged "PublicRouteTable" r) ∧
    (∃ r ∈ noIdRoutes, tagged "PrivateRouteTable" r) ∧
    GetRouteTableIDs noIdClient "vpc-a" 0 =
      ((⟨"", ""⟩, some (Errorf "route table ids not found")), 1) := by
  refine ⟨rfl, ?_, ?_, ?_⟩ <;> decide

/-- C2, amended: when `DescribeRouteTables` succeeds, `pub` is the last route
table of the response tagged `"PublicRouteTable"`, `priv` the last one tagged
`"PrivateRouteTable"`, and both have a non-empty identifier, `GetRouteTableIDs`
returns a nil error with `Public` the identifier of `pub` and `Private` the
identifier of `priv`. -/
theorem GetRouteTableIDs_both_tagged {σ : Type} (ec2Svc : EC2API σ) (VpcID : String) (s s1 : σ)
    (tables : List RouteTable)
    (hcall : ec2Svc.DescribeRouteTables ⟨[⟨"vpc-id", [VpcID]⟩]⟩ s = (.ok ⟨tables⟩, s1))
    (beforePub afterPub : List RouteTable) (pub : RouteTable) (pubId : String)
    (hsplitPub : tables = beforePub ++ pub :: afterPub)
    (hpub : tagged "PublicRouteTable" pub)
    (hlastPub : ∀ t ∈ afterPub, ¬ tagged "PublicRouteTable" t)
    (hpubId : pub.RouteTableId = some pubId) (hpubNe : pubId ≠ "")
    (beforePriv afterPriv : List RouteTable) (priv : RouteTable) (privId : String)
    (hsplitPriv : tables = beforePriv ++ priv :: afterPriv)
    (hpriv : tagged "PrivateRouteTable" priv)
    (hlastPriv : ∀ t ∈ afterPriv, ¬ tagged "PrivateRouteTable" t)
    (hprivId : priv.RouteTableId = some privId) (hprivNe : privId ≠ "") :
    GetRouteTableIDs ec2Svc VpcID s = ((⟨pubId, privId⟩, none), s1) := by
  have h1 : (scanRouteTables tables ⟨"", ""⟩).Public = pubId := by
    rw [hsplitPub, scanRouteTables_Public_last _ _ _ _ hpub hlastPub, hpubId]; rfl
  have h2 : (scanRouteTables tables ⟨"", ""⟩).Private = privId := by
    rw [hsplitPriv, scanRouteTables_Private_last _ _ _ _ hpriv hlastPriv, hprivId]; rfl
  rw [GetRouteTableIDs_of_ok ec2Svc VpcID s s1 tables hcall, h1, h2, if_pos ⟨hprivNe, hpubNe⟩]
  have : scanRouteTables tables ⟨"", ""⟩ = ⟨pubId, privId⟩ := by
    cases hscan : scanRouteTables tables ⟨"", ""⟩ with
    | mk a b => rw [hscan] at h1 h2; simp only at h1 h2; rw [h1, h2]
  rw [this]

/-- The small account: `rtb-3` is the last public route table, `rtb-2` the last
private one. -/
theorem GetRouteTableIDs_both_tagged_witness :
    GetRouteTableIDs demoClient "vpc-a" 0 = ((⟨"rtb-3", "rtb-2"⟩, none), 1) :=
  GetRouteTableIDs_both_tagged demoClient "vpc-a" 0 1 demoRoutes rfl
    [⟨some "rtb-1", [nameTag "PublicRouteTable"]⟩, ⟨some "rtb-2", [nameTag "PrivateRouteTable"]⟩]
    [] ⟨some "rtb-3", [⟨some "team", some "net"⟩, nameTag "PublicRouteTable"]⟩ "rtb-3"
    rfl (by decide) (by decide) rfl (by decide)
    [⟨some "rtb-1", [nameTag "PublicRouteTable"]⟩]
    [⟨some "rtb-3", [⟨some "team", some "net"⟩, nameTag "PublicRouteTable"]⟩]
    ⟨some "rtb-2", [nameTag "PrivateRouteTable"]⟩ "rtb-2"
    rfl (by decide) (by decide) rfl (by decide)

/-- C3: when `DescribeRouteTables` succeeds and no route table of the response
is tagged `"PublicRouteTable"`, or none is tagged `"PrivateRouteTable"` (the
empty response included), `GetRouteTableIDs` returns the zero `RouteTableIDs`
with the error `"route table ids not found"`; and it returns a nil error only
if a route table of each role is in the response. -/
theorem GetRouteTableIDs_not_found {σ : Type} (ec2Svc : EC2API σ) (VpcID : String) (s s1 : σ)
    (tables : List RouteTable)
    (hcall : ec2Svc.DescribeRouteTables ⟨[⟨"vpc-id", [VpcID]⟩]⟩ s = (.ok ⟨tables⟩, s1)) :
    (((∀ t ∈ tables, ¬ tagged "PublicRouteTable" t) ∨
        (∀ t ∈ tables, ¬ tagged "PrivateRouteTable" t)) →
      GetRouteTableIDs ec2Svc VpcID s =
        ((⟨"", ""⟩, some (Errorf "route table ids not found")), s1)) ∧
    ((GetRouteTableIDs ec2Svc VpcID s).1.2 = none →
      (∃ t ∈ tables, tagged "PublicRouteTable" t) ∧
      (∃ t ∈ tables, tagged "PrivateRouteTable" t)) := by
  rw [GetRouteTableIDs_of_ok ec2Svc VpcID s s1 tables hcall]
  constructor
  · intro h
    rw [if_neg]
    rintro ⟨hpriv, hpub⟩
    rcases h with h | h
    · exact hpub (scanRouteTables_Public_of_untagged tables _ h)
    · exact hpriv (scanRouteTables_Private_of_untagged tables _ h)
  · intro h
    split at h
    · rename_i hne
      exact ⟨exists_tagged_of_Public_ne tables hne.2, exists_tagged_of_Private_ne tables hne.1⟩
    · simp at h

/-- An empty response gives the "not found" error; the nil error of the small
account comes with a route table of each role. -/
theorem GetRouteTableIDs_not_found_witness :
    GetRouteTableIDs emptyClient "vpc-a" 0 =
        ((⟨"", ""⟩, some (Errorf "route table ids not found")), 1) ∧
    ((∃ t ∈ demoRoutes, tagged "PublicRouteTable" t) ∧
      (∃ t ∈ demoRoutes, tagged "PrivateRouteTable" t)) :=
  ⟨(GetRouteTableIDs_not_found emptyClient "vpc-a" 0 1 [] rfl).1 (Or.inl (by simp)),
   (GetRouteTableIDs_not_found demoClient "vpc-a" 0 1 demoRoutes rfl).2 (by decide)⟩

/-- C4: when `GetRouteTableIDs` returns a nil error, its `Public` field is the
identifier of the last route table of the response, in response order, that is
tagged `"PublicRouteTable"`, and its `Private` field the identifier of the last
one tagged `"PrivateRouteTable"`. -/
theorem GetRouteTableIDs_last_wins {σ : Type} (ec2Svc : EC2API σ) (VpcID : String) (s s1 : σ)
    (tables : List RouteTable) (ids : RouteTableIDs)
    (hcall : ec2Svc.DescribeRouteTables ⟨[⟨"vpc-id", [VpcID]⟩]⟩ s = (.ok ⟨tables⟩, s1))
    (hok : GetRouteTableIDs ec2Svc VpcID s = ((ids, none), s1)) :
    (∀ (before after : List RouteTable) (p : RouteTable), tables = before ++ p :: after →
      tagged "PublicRouteTable" p → (∀ t ∈ after, ¬ tagged "PublicRouteTable" t) →
      p.RouteTableId = some ids.Public) ∧
    (∀ (before after : List RouteTable) (p : RouteTable), tables = before ++ p :: after →
      tagged "PrivateRouteTable" p → (∀ t ∈ after, ¬ tagged "PrivateRouteTable" t) →
      p.RouteTableId = some ids.Private) := by
  rw [GetRouteTableIDs_of_ok ec2Svc VpcID s s1 tables hcall] at hok
  split at hok
  · rename_i hne
    simp only [Prod.mk.injEq, and_true] at hok
    subst hok
    constructor
    · intro before after p hsplit hp hlast
      have h := scanRouteTables_Public_last before after p ⟨"", ""⟩ hp hlast
      rw [← hsplit] at h
      cases hid : p.RouteTableId with
      | none => rw [hid] at h; exact absurd h hne.2
      | some v => rw [hid] at h; rw [h]; rfl
    · intro before after p hsplit hp hlast
      have h := scanRouteTables_Private_last before after p ⟨"", ""⟩ hp hlast
      rw [← hsplit] at h
      cases hid : p.RouteTableId with
      | none => rw [hid] at h; exact absurd h hne.1
      | some v => rw [hid] at h; rw [h]; rfl
  · simp at hok

/-- The small account has the public route tables `rtb-1` and `rtb-3`; the
result carries `rtb-3`. -/
theorem GetRouteTableIDs_last_wins_witness :
    GetRouteTableIDs demoClient "vpc-a" 0 = ((⟨"rtb-3", "rtb-2"⟩, none), 1) ∧
    (RouteTable.mk (some "rtb-3") [⟨some "team", some "net"⟩, nameTag "PublicRouteTable"]).RouteTableId
      = some "rtb-3" ∧
    (RouteTable.mk (some "rtb-2") [nameTag "PrivateRouteTable"]).RouteTableId = some "rtb-2" :=
  ⟨by decide,
   (GetRouteTableIDs_last_wins demoClient "vpc-a" 0 1 demoRoutes ⟨"rtb-3", "rtb-2"⟩ rfl
      (by decide)).1
    [⟨some "rtb-1", [nameTag "PublicRouteTable"]⟩, ⟨some "rtb-2", [nameTag "PrivateRouteTable"]⟩]
    [] ⟨some "rtb-3", [⟨some "team", some "net"⟩, nameTag "PublicRouteTable"]⟩
    rfl (by decide) (by decide),
   (GetRouteTableIDs_last_wins demoClient "vpc-a" 0 1 demoRoutes ⟨"rtb-3", "rtb-2"⟩ rfl
      (by decide)).2
    [⟨some "rtb-1", [nameTag "PublicRouteTable"]⟩]
    [⟨some "rtb-3", [⟨some "team", some "net"⟩, nameTag "PublicRouteTable"]⟩]
    ⟨some "rtb-2", [nameTag "PrivateRouteTable"]⟩
    rfl (by decide) (by decide)⟩

/-! ## `GetCustomerGatewayConfig`: results -/

/-- GetCustomerGatewayConfig on a stack each of whose outputs has a key, none of
them starting with `"CustomerGateway"` (a stack with no outputs included): for
every gateway IP and every client, the call returns the empty string with the
error `"unable to get CustomerGatewayID from cloudformation stack"`, and issues
no call to the client. -/
theorem GetCustomerGatewayConfig_no_gateway_output {σ : Type} (ec2Svc : EC2API σ)
    (customerGatewayIP : String) (stack : Stack) (s : σ)
    (h : ∀ o ∈ stack.Outputs, ∃ key, o.OutputKey = some key ∧
      HasPrefix key "CustomerGateway" = false) :
    GetCustomerGatewayConfig ec2Svc customerGatewayIP stack s =
      (.ret "" (some (Errorf "unable to get CustomerGatewayID from cloudformation stack")), s) := by
  obtain ⟨outs⟩ := stack
  simp only [GetCustomerGatewayConfig]
  simp only at h
  induction outs with
  | nil => rfl
  | cons o rest ih =>
    obtain ⟨key, hkey, hpre⟩ := h o (List.mem_cons_self _ _)
    rw [scanOutputs_cons_skip_key ec2Svc customerGatewayIP o rest s key hkey hpre]
    exact ih (fun x hx => h x (List.mem_cons_of_mem _ hx))

/-- The stack with no outputs, and a stack without a customer gateway output. -/
theorem GetCustomerGatewayConfig_no_gateway_output_examples :
    GetCustomerGatewayConfig demoClient "203.0.113.10"
        ⟨[⟨some "VpcId", some "vpc-a"⟩, ⟨some "VPNGateway", some "vgw-1"⟩]⟩ 0 =
      (.ret "" (some (Errorf "unable to get CustomerGatewayID from cloudformation stack")), 0) ∧
    GetCustomerGatewayConfig demoClient "203.0.113.10" ⟨[]⟩ 0 =
      (.ret "" (some (Errorf "unable to get CustomerGatewayID from cloudformation stack")), 0) :=
  ⟨GetCustomerGatewayConfig_no_gateway_output demoClient "203.0.113.10"
      ⟨[⟨some "VpcId", some "vpc-a"⟩, ⟨some "VPNGateway", some "vgw-1"⟩]⟩ 0 (by decide),
   GetCustomerGatewayConfig_no_gateway_output demoClient "203.0.113.10" ⟨[]⟩ 0 (by simp)⟩

/-- C5, at the failing input: the only output of the stack has no key at all, so
no output of the stack has a key starting with `"CustomerGateway"`; and
`GetCustomerGatewayConfig` ends in a nil-dereference panic at
`*output.OutputKey` instead of returning the empty string with the
"unable to get CustomerGatewayID" error. -/
theorem GetCustomerGatewayConfig_keyless_output :
    (∀ o ∈ (Stack.mk [⟨none, some "vpc-a"⟩]).Outputs,
      ¬ ∃ key, o.OutputKey = some key ∧ HasPrefix key "CustomerGateway" = true) ∧
    GetCustomerGatewayConfig demoClient "203.0.113.10" ⟨[⟨none, some "vpc-a"⟩]⟩ 0 =
      (.panic .nilDereference, 0) := by
  constructor
  · intro o ho
    simp only [List.mem_singleton] at ho
    subst ho
    simp
  · rfl

/-- C6, the claim as stated fails, at two stacks. In `demoStack` the output
`CustomerGatewayA` has a prefixed key, and the first connection returned for its
value `cgw-a` has the configuration `configA`, which contains the IP; yet
`GetCustomerGatewayConfig` returns `configB`, the configuration of the earlier
output `CustomerGatewayB`. In the second stack the same output comes after
`CustomerGatewayX`, whose call is rejected, and `GetCustomerGatewayConfig`
returns that error and no configuration. -/
theorem GetCustomerGatewayConfig_later_match_not_returned :
    (HasPrefix "CustomerGatewayA" "CustomerGateway" = true ∧
      (∀ n, demoClient.DescribeVpnConnections (vpnQuery "cgw-a") n =
        (.ok ⟨[⟨some configA⟩]⟩, n + 1)) ∧
      Contains configA "203.0.113.10" = true) ∧
    ((⟨some "CustomerGatewayA", some "cgw-a"⟩ : Output) ∈ demoStack.Outputs ∧
      GetCustomerGatewayConfig demoClient "203.0.113.10" demoStack 0 = (.ret configB none, 2) ∧
      configB ≠ configA) ∧
    ((⟨some "CustomerGatewayA", some "cgw-a"⟩ : Output) ∈
        (Stack.mk [⟨some "CustomerGatewayX", some "cgw-x"⟩,
          ⟨some "CustomerGatewayA", some "cgw-a"⟩]).Outputs ∧
      GetCustomerGatewayConfig demoClient "203.0.113.10"
          ⟨[⟨some "CustomerGatewayX", some "cgw-x"⟩, ⟨some "CustomerGatewayA", some "cgw-a"⟩]⟩ 0 =
        (.ret "" (some ⟨"InvalidCustomerGatewayID.NotFound"⟩), 1)) :=
  ⟨⟨by decide, fun _ => rfl, by decide⟩, ⟨by decide, by decide, by decide⟩,
    ⟨by decide, by decide⟩⟩

/-- C6, amended: when the scan passes over every output before `o` (each has a
key without the prefix, or a prefixed key and a call that succeeds with a first
connection whose configuration lacks the IP), `o` has a key starting with
`"CustomerGateway"`, and the first VPN connection returned by the call for
the value of `o` has a configuration containing the gateway IP, then
`GetCustomerGatewayConfig` returns a nil error and that configuration,
unchanged. -/
theorem GetCustomerGatewayConfig_first_match {σ : Type} (ec2Svc : EC2API σ)
    (customerGatewayIP : String) (stack : Stack) (s s0 s1 : σ)
    (before after : List Output) (o : Output) (key value config : String)
    (first : VpnConnection) (others : List VpnConnection)
    (hsplit : stack.Outputs = before ++ o :: after)
    (hbefore : passOver ec2Svc customerGatewayIP before s = some s0)
    (hkey : o.OutputKey = some key) (hpre : HasPrefix key "CustomerGateway" = true)
    (hval : o.OutputValue = some value)
    (hcall : ec2Svc.DescribeVpnConnections (vpnQuery value) s0 = (.ok ⟨first :: others⟩, s1))
    (hcfg : first.CustomerGatewayConfiguration = some config)
    (hip : Contains config customerGatewayIP = true) :
    GetCustomerGatewayConfig ec2Svc customerGatewayIP stack s = (.ret config none, s1) := by
  rw [GetCustomerGatewayConfig, hsplit,
    scanOutputs_append_of_passOver ec2Svc customerGatewayIP before _ s s0 hbefore]
  exact scanOutputs_cons_match ec2Svc customerGatewayIP o after s0 s1 key value config first
    others hkey hpre hval hcall hcfg hip

/-- In `demoStack` the scan passes over `VpcId` and `CustomerGatewayC` and stops
at `CustomerGatewayB`. -/
theorem GetCustomerGatewayConfig_first_match_witness :
    GetCustomerGatewayConfig demoClient "203.0.113.10" demoStack 0 = (.ret configB none, 2) :=
  GetCustomerGatewayConfig_first_match demoClient "203.0.113.10" demoStack 0 1 2
    [⟨some "VpcId", some "vpc-a"⟩, ⟨some "CustomerGatewayC", some "cgw-c"⟩]
    [⟨some "CustomerGatewayA", some "cgw-a"⟩] ⟨some "CustomerGatewayB", some "cgw-b"⟩
    "CustomerGatewayB" "cgw-b" configB ⟨some configB⟩ [] rfl (by decide) rfl (by decide) rfl rfl
    rfl (by decide)

/-- C7: an error of the one API call is returned as it is, with the empty
result. `GetVpcIDs` returns the nil slice and the error of `DescribeInstances`;
`GetRouteTableIDs` the zero `RouteTableIDs` and the error of
`DescribeRouteTables`; `GetCustomerGatewayConfig` the empty string and the
error of the `DescribeVpnConnections` call it issues for an output `o`, which
it reaches after passing over the outputs before `o`. -/
theorem api_error_returned_unmodified {σ : Type} (ec2Svc : EC2API σ) (e : GoError) (s s1 : σ) :
    (∀ (order : Nat → Nat) (nodes : List (Option String)),
      ec2Svc.DescribeInstances ⟨nodes⟩ s = (.error e, s1) →
      GetVpcIDs ec2Svc order nodes s = (.ret none (some e), s1)) ∧
    (∀ VpcID : String,
      ec2Svc.DescribeRouteTables ⟨[⟨"vpc-id", [VpcID]⟩]⟩ s = (.error e, s1) →
      GetRouteTableIDs ec2Svc VpcID s = ((⟨"", ""⟩, some e), s1)) ∧
    (∀ (customerGatewayIP : String) (stack : Stack) (before after : List Output) (o : Output)
        (key value : String) (s0 : σ),
      stack.Outputs = before ++ o :: after →
      passOver ec2Svc customerGatewayIP before s = some s0 →
      o.OutputKey = some key → HasPrefix key "CustomerGateway" = true →
      o.OutputValue = some value →
      ec2Svc.DescribeVpnConnections (vpnQuery value) s0 = (.error e, s1) →
      GetCustomerGatewayConfig ec2Svc customerGatewayIP stack s = (.ret "" (some e), s1)) := by
  refine ⟨?_, ?_, ?_⟩
  · intro order nodes hcall
    simp [GetVpcIDs, hcall]
  · intro VpcID hcall
    simp [GetRouteTableIDs, hcall]
  · intro ip stack before after o key value s0 hsplit hbefore hkey hpre hval hcall
    rw [GetCustomerGatewayConfig, hsplit,
      scanOutputs_append_of_passOver ec2Svc ip before _ s s0 hbefore]
    exact scanOutputs_cons_error ec2Svc ip o after s0 s1 key value e hkey hpre hval hcall

/-- A throttled client fails the first two helpers; the rejected query for
`cgw-x` ends `GetCustomerGatewayConfig` after one skipped output. -/
theorem api_error_returned_unmodified_witness :
    GetVpcIDs (failingClient ⟨"RequestLimitExceeded"⟩) (fun _ => 0) [some "i-0a"] 0 =
      (.ret none (some ⟨"RequestLimitExceeded"⟩), 1) ∧
    GetRouteTableIDs (failingClient ⟨"RequestLimitExceeded"⟩) "vpc-a" 0 =
      ((⟨"", ""⟩, some ⟨"RequestLimitExceeded"⟩), 1) ∧
    GetCustomerGatewayConfig demoClient "203.0.113.10"
        ⟨[⟨some "CustomerGatewayC", some "cgw-c"⟩, ⟨some "CustomerGatewayX", some "cgw-x"⟩,
          ⟨some "CustomerGatewayA", some "cgw-a"⟩]⟩ 0 =
      (.ret "" (some ⟨"InvalidCustomerGatewayID.NotFound"⟩), 2) :=
  ⟨(api_error_returned_unmodified (failingClient ⟨"RequestLimitExceeded"⟩)
      ⟨"RequestLimitExceeded"⟩ 0 1).1 (fun _ => 0) [some "i-0a"] rfl,
   (api_error_returned_unmodified (failingClient ⟨"RequestLimitExceeded"⟩)
      ⟨"RequestLimitExceeded"⟩ 0 1).2.1 "vpc-a" rfl,
   (api_error_returned_unmodified demoClient ⟨"InvalidCustomerGatewayID.NotFound"⟩ 0 2).2.2
      "203.0.113.10" _ [⟨some "CustomerGatewayC", some "cgw-c"⟩]
      [⟨some "CustomerGatewayA", some "cgw-a"⟩] ⟨some "CustomerGatewayX", some "cgw-x"⟩
      "CustomerGatewayX" "cgw-x" 1 rfl (by decide) rfl (by decide) rfl rfl⟩

/-- GetCustomerGatewayConfig reaches an output with a prefixed key whose call
succeeds with no VPN connection: the access `VpnConnections[0]` panics. -/
theorem GetCustomerGatewayConfig_panics_of_no_connection {σ : Type} (ec2Svc : EC2API σ)
    (customerGatewayIP : String) (stack : Stack) (s s0 s1 : σ)
    (before after : List Output) (o : Output) (key value : String)
    (hsplit : stack.Outputs = before ++ o :: after)
    (hbefore : passOver ec2Svc customerGatewayIP before s = some s0)
    (hkey : o.OutputKey = some key) (hpre : HasPrefix key "CustomerGateway" = true)
    (hval : o.OutputValue = some value)
    (hcall : ec2Svc.DescribeVpnConnections (vpnQuery value) s0 = (.ok ⟨[]⟩, s1)) :
    GetCustomerGatewayConfig ec2Svc customerGatewayIP stack s = (.panic .indexOutOfRange, s1) := by
  rw [GetCustomerGatewayConfig, hsplit,
    scanOutputs_append_of_passOver ec2Svc customerGatewayIP before _ s s0 hbefore]
  exact scanOutputs_cons_empty ec2Svc customerGatewayIP o after s0 s1 key value hkey hpre hval
    hcall

/-- C8, at the failing input: the stack has the single output
`CustomerGatewayNew = cgw-new`, and `DescribeVpnConnections` succeeds for
`cgw-new` with zero VPN connections. No output yields a configuration
containing the IP, and `GetCustomerGatewayConfig` ends in an index-out-of-range
panic at `VpnConnections[0]`: it returns neither a configuration nor an error. -/
theorem GetCustomerGatewayConfig_no_connection_panics :
    demoClient.DescribeVpnConnections (vpnQuery "cgw-new") 0 = (.ok ⟨[]⟩, 1) ∧
    GetCustomerGatewayConfig demoClient "203.0.113.10"
        ⟨[⟨some "CustomerGatewayNew", some "cgw-new"⟩]⟩ 0 =
      (.panic .indexOutOfRange, 1) :=
  ⟨rfl, by decide⟩

/-- GetCustomerGatewayConfig scans the outputs in order, for every client and
client state. If `o` has a key that does not start with `"CustomerGateway"`, the
result on `o :: rest` is the result on `rest`, from the same client state: no
call is issued for `o`. If `o` has a key that does, and the call for the value
of `o` succeeds with a first connection whose configuration does not contain the
IP, the result on `o :: rest` is the result on `rest`, continued from the client
state `s1` that call leaves (the same state, for a client that keeps none). If
that configuration contains the IP, the call on `o :: rest` returns it with a
nil error. And a returned configuration is that of the first output, in stack
order, with a prefixed key and a first connection whose configuration contains
the IP: every output before it is passed over. -/
theorem GetCustomerGatewayConfig_scan {σ : Type} (ec2Svc : EC2API σ)
    (customerGatewayIP : String) (s : σ) :
    (∀ (o : Output) (rest : List Output) (key : String),
      o.OutputKey = some key → HasPrefix key "CustomerGateway" = false →
      GetCustomerGatewayConfig ec2Svc customerGatewayIP ⟨o :: rest⟩ s =
        GetCustomerGatewayConfig ec2Svc customerGatewayIP ⟨rest⟩ s) ∧
    (∀ (o : Output) (rest : List Output) (key value config : String) (first : VpnConnection)
        (others : List VpnConnection) (s1 : σ),
      o.OutputKey = some key → HasPrefix key "CustomerGateway" = true →
      o.OutputValue = some value →
      ec2Svc.DescribeVpnConnections (vpnQuery value) s = (.ok ⟨first :: others⟩, s1) →
      first.CustomerGatewayConfiguration = some config →
      Contains config customerGatewayIP = false →
      GetCustomerGatewayConfig ec2Svc customerGatewayIP ⟨o :: rest⟩ s =
        GetCustomerGatewayConfig ec2Svc customerGatewayIP ⟨rest⟩ s1) ∧
    (∀ (o : Output) (rest : List Output) (key value config : String) (first : VpnConnection)
        (others : List VpnConnection) (s1 : σ),
      o.OutputKey = some key → HasPrefix key "CustomerGateway" = true →
      o.OutputValue = some value →
      ec2Svc.DescribeVpnConnections (vpnQuery value) s = (.ok ⟨first :: others⟩, s1) →
      first.CustomerGatewayConfiguration = some config →
      Contains config customerGatewayIP = true →
      GetCustomerGatewayConfig ec2Svc customerGatewayIP ⟨o :: rest⟩ s =
        (.ret config none, s1)) ∧
    (∀ (stack : Stack) (config : String) (s1 : σ),
      GetCustomerGatewayConfig ec2Svc customerGatewayIP stack s = (.ret config none, s1) →
      ∃ (before after : List Output) (o : Output) (key value : String) (s0 : σ)
        (first : VpnConnection) (others : List VpnConnection),
        stack.Outputs = before ++ o :: after ∧
        passOver ec2Svc customerGatewayIP before s = some s0 ∧
        o.OutputKey = some key ∧ HasPrefix key "CustomerGateway" = true ∧
        o.OutputValue = some value ∧
        ec2Svc.DescribeVpnConnections (vpnQuery value) s0 = (.ok ⟨first :: others⟩, s1) ∧
        first.CustomerGatewayConfiguration = some config ∧
        Contains config customerGatewayIP = true) := by
  refine ⟨?_, ?_, ?_, ?_⟩
  · intro o rest key hkey hpre
    exact scanOutputs_cons_skip_key ec2Svc customerGatewayIP o rest s key hkey hpre
  · intro o rest key value config first others s1 hkey hpre hval hcall hcfg hip
    exact scanOutputs_cons_skip_config ec2Svc customerGatewayIP o rest s s1 key value config
      first others hkey hpre hval hcall hcfg hip
  · intro o rest key value config first others s1 hkey hpre hval hcall hcfg hip
    exact scanOutputs_cons_match ec2Svc customerGatewayIP o rest s s1 key value config
      first others hkey hpre hval hcall hcfg hip
  · intro stack config s1 h
    exact scanOutputs_ret_nil_inv ec2Svc customerGatewayIP stack.Outputs s s1 config h

/-- Skipping `VpcId`, skipping `CustomerGatewayC`, and stopping at
`CustomerGatewayB` with its configuration. -/
theorem GetCustomerGatewayConfig_scan_examples :
    GetCustomerGatewayConfig demoClient "203.0.113.10"
        ⟨⟨some "VpcId", some "vpc-a"⟩ :: [⟨some "CustomerGatewayB", some "cgw-b"⟩]⟩ 0 =
      GetCustomerGatewayConfig demoClient "203.0.113.10"
        ⟨[⟨some "CustomerGatewayB", some "cgw-b"⟩]⟩ 0 ∧
    GetCustomerGatewayConfig demoClient "203.0.113.10"
        ⟨⟨some "CustomerGatewayC", some "cgw-c"⟩ :: [⟨some "CustomerGatewayB", some "cgw-b"⟩]⟩ 0 =
      GetCustomerGatewayConfig demoClient "203.0.113.10"
        ⟨[⟨some "CustomerGatewayB", some "cgw-b"⟩]⟩ 1 ∧
    GetCustomerGatewayConfig demoClient "203.0.113.10"
        ⟨⟨some "CustomerGatewayB", some "cgw-b"⟩ :: [⟨some "CustomerGatewayA", some "cgw-a"⟩]⟩ 1 =
      (.ret configB none, 2) :=
  ⟨(GetCustomerGatewayConfig_scan demoClient "203.0.113.10" 0).1 ⟨some "VpcId", some "vpc-a"⟩
      [⟨some "CustomerGatewayB", some "cgw-b"⟩] "VpcId" rfl (by decide),
   (GetCustomerGatewayConfig_scan demoClient "203.0.113.10" 0).2.1
      ⟨some "CustomerGatewayC", some "cgw-c"⟩ [⟨some "CustomerGatewayB", some "cgw-b"⟩]
      "CustomerGatewayC" "cgw-c" configC ⟨some configC⟩ [] 1 rfl (by decide) rfl rfl rfl
      (by decide),
   (GetCustomerGatewayConfig_scan demoClient "203.0.113.10" 1).2.2.1
      ⟨some "CustomerGatewayB", some "cgw-b"⟩ [⟨some "CustomerGatewayA", some "cgw-a"⟩]
      "CustomerGatewayB" "cgw-b" configB ⟨some configB⟩ [] 2 rfl (by decide) rfl rfl rfl
      (by decide)⟩

/-- C9, at the failing input: the first output of the list has no key, so its
key does not start with `"CustomerGateway"`, and the rest of the list is the
single output `CustomerGatewayB`. On the whole list `GetCustomerGatewayConfig`
ends in a nil-dereference panic at `*output.OutputKey`, before any call; on the
rest alone it returns `configB` with a nil error. The keyless output is not
skipped: the result on `o :: rest` is not the result on `rest`. -/
theorem GetCustomerGatewayConfig_keyless_head_not_skipped :
    (¬ ∃ key, (Output.mk none (some "vpc-a")).OutputKey = some key ∧
      HasPrefix key "CustomerGateway" = true) ∧
    GetCustomerGatewayConfig demoClient "203.0.113.10"
        ⟨⟨none, some "vpc-a"⟩ :: [⟨some "CustomerGatewayB", some "cgw-b"⟩]⟩ 0 =
      (.panic .nilDereference, 0) ∧
    GetCustomerGatewayConfig demoClient "203.0.113.10"
        ⟨[⟨some "CustomerGatewayB", some "cgw-b"⟩]⟩ 0 = (.ret configB none, 1) ∧
    GetCustomerGatewayConfig demoClient "203.0.113.10"
        ⟨⟨none, some "vpc-a"⟩ :: [⟨some "CustomerGatewayB", some "cgw-b"⟩]⟩ 0 ≠
      GetCustomerGatewayConfig demoClient "203.0.113.10"
        ⟨[⟨some "CustomerGatewayB", some "cgw-b"⟩]⟩ 0 :=
  ⟨by simp, rfl, by decide, by decide⟩

/-- C10: whenever `GetCustomerGatewayConfig` returns a nil error, the returned
string contains the gateway IP, and it is the configuration of the first VPN
connection returned by the call the function issued for the value of an output
of the stack whose key starts with `"CustomerGateway"`. -/
theorem GetCustomerGatewayConfig_sound {σ : Type} (ec2Svc : EC2API σ)
    (customerGatewayIP : String) (stack : Stack) (s s1 : σ) (config : String)
    (h : GetCustomerGatewayConfig ec2Svc customerGatewayIP stack s = (.ret config none, s1)) :
    Contains config customerGatewayIP = true ∧
    ∃ o ∈ stack.Outputs, ∃ (key value : String) (s0 : σ) (first : VpnConnection)
      (others : List VpnConnection),
      o.OutputKey = some key ∧ HasPrefix key "CustomerGateway" = true ∧
      o.OutputValue = some value ∧
      (∃ before, before <+: stack.Outputs ∧
        passOver ec2Svc customerGatewayIP before s = some s0) ∧
      ec2Svc.DescribeVpnConnections (vpnQuery value) s0 = (.ok ⟨first :: others⟩, s1) ∧
      first.CustomerGatewayConfiguration = some config := by
  obtain ⟨before, after, o, key, value, s0, first, others, hsplit, hbefore, hkey, hpre, hval,
    hcall, hcfg, hip⟩ := scanOutputs_ret_nil_inv ec2Svc customerGatewayIP stack.Outputs s s1
      config h
  refine ⟨hip, o, ?_, key, value, s0, first, others, hkey, hpre, hval, ⟨before, ?_, hbefore⟩,
    hcall, hcfg⟩
  · rw [hsplit]; simp
  · rw [hsplit]; exact List.prefix_append _ _

/-- The configuration returned for `demoStack` is `configB`, from the output
`CustomerGatewayB`. -/
theorem GetCustomerGatewayConfig_sound_witness :
    Contains configB "203.0.113.10" = true ∧
    ∃ o ∈ demoStack.Outputs, ∃ (key value : String) (s0 : Nat) (first : VpnConnection)
      (others : List VpnConnection),
      o.OutputKey = some key ∧ HasPrefix key "CustomerGateway" = true ∧
      o.OutputValue = some value ∧
      (∃ before, before <+: demoStack.Outputs ∧
        passOver demoClient "203.0.113.10" before 0 = some s0) ∧
      demoClient.DescribeVpnConnections (vpnQuery value) s0 = (.ok ⟨first :: others⟩, 2) ∧
      first.CustomerGatewayConfiguration = some configB :=
  GetCustomerGatewayConfig_sound demoClient "203.0.113.10" demoStack 0 2 configB (by decide)

end AwsVpnController
